import Mathlib

/-!
Verification of the FreeOrion client–server networking core
(`ServerNetworkCore` / `NetworkCore`, the message framing codec and the
player-connection lifecycle) and of the client-side message-handling
re-entrancy guard in `HumanClientApp`.

The repository ships the declarations of the networking core
(`network/ServerNetworkCore.h`, `PlayerConnection`, `ServerNetworkCore`)
but not the member-function bodies, so the operational behaviour of the
codec and of the connection tables is modelled from the specification;
`HumanClientApp.cpp` (`HandleMessageImpl`, `HandleSystemEvents`) is
present and is embedded directly from the source.
-/

namespace FreeOrion

/-! ## Message framing codec

Modelled from the spec: each frame is a length-prefixed serialized
`Message`; a `Message` carries a message-type tag, a sender id and a
text/binary body.  The exact byte layout is left to the implementation
by the spec ("Exact byte-level layout ... is determined by the chosen
transport/serialization library"); we fix a 4-byte big-endian length
prefix over a payload of 1 tag byte, 4 sender bytes (two's complement)
and the body bytes. -/

/-- A discrete protocol message: message-kind tag, originating player id,
and a text/binary body (modelled as a list of byte values). -/
structure Message where
  mtype : Nat
  sender : Int
  body : List Nat
  deriving DecidableEq, Repr

/-- Big-endian 4-byte encoding of a natural number (values taken mod 256
per byte position). -/
def enc32 (n : Nat) : List Nat :=
  [n / 2 ^ 24 % 256, n / 2 ^ 16 % 256, n / 2 ^ 8 % 256, n % 256]

/-- Big-endian 4-byte decoding. -/
def dec32 (a b c d : Nat) : Nat :=
  ((a * 256 + b) * 256 + c) * 256 + d

/-- The unsigned 32-bit representative of an integer (two's complement). -/
def encInt32Nat (i : Int) : Nat :=
  if i < 0 then (i + 2 ^ 32).toNat else i.toNat

/-- Two's-complement 4-byte encoding of an integer in `[-2^31, 2^31)`. -/
def encInt32 (i : Int) : List Nat :=
  enc32 (encInt32Nat i)

/-- Two's-complement 4-byte decoding. -/
def decInt32 (a b c d : Nat) : Int :=
  let n := dec32 a b c d
  if n < 2 ^ 31 then (n : Int) else (n : Int) - 2 ^ 32

/-- The serialized payload of a message: tag byte, sender bytes, body. -/
def encodePayload (m : Message) : List Nat :=
  m.mtype :: (encInt32 m.sender ++ m.body)

/-- `Encode`: a self-delimiting frame, 4-byte big-endian length prefix
followed by the payload. -/
def encodeMessage (m : Message) : List Nat :=
  enc32 (encodePayload m).length ++ encodePayload m

/-- Result of one decode attempt on an accumulation buffer. -/
inductive DecodeResult where
  /-- one complete frame was consumed, yielding a message and the
  unconsumed remainder of the buffer -/
  | complete (m : Message) (rest : List Nat)
  /-- the buffer does not yet hold a complete frame -/
  | incomplete
  /-- the frame header is present but corrupt (declared length too small
  to hold a message header) -/
  | malformed
  deriving DecidableEq, Repr

/-- `Decode`: attempt to extract one complete frame from the front of an
accumulation buffer.  Fewer than 4 bytes, or fewer body bytes than the
length prefix declares, is `incomplete`; a declared length too small to
cover the message header is `malformed`. -/
def decodeFrame (buf : List Nat) : DecodeResult :=
  match buf with
  | l1 :: l2 :: l3 :: l4 :: rest =>
    let len := dec32 l1 l2 l3 l4
    if rest.length < len then .incomplete
    else
      match rest.take len, rest.drop len with
      | t :: s1 :: s2 :: s3 :: s4 :: body, remainder =>
          .complete ⟨t, decInt32 s1 s2 s3 s4, body⟩ remainder
      | _, _ => .malformed
  | _ => .incomplete

/-- A message whose fields fit the wire format: byte-sized tag, 32-bit
sender id, byte-valued body that fits in a 32-bit length prefix. -/
def ValidMessage (m : Message) : Prop :=
  m.mtype < 256 ∧ -2 ^ 31 ≤ m.sender ∧ m.sender < 2 ^ 31 ∧
    (∀ b ∈ m.body, b < 256) ∧ m.body.length + 5 < 2 ^ 32

theorem dec32_enc32 (n : Nat) (h : n < 2 ^ 32) :
    dec32 (n / 2 ^ 24 % 256) (n / 2 ^ 16 % 256) (n / 2 ^ 8 % 256) (n % 256) = n := by
  simp only [dec32]
  omega

theorem encInt32Nat_lt (i : Int) (h1 : -2 ^ 31 ≤ i) (h2 : i < 2 ^ 31) :
    encInt32Nat i < 2 ^ 32 := by
  unfold encInt32Nat; split <;> omega

theorem decInt32_encInt32 (i : Int) (h1 : -2 ^ 31 ≤ i) (h2 : i < 2 ^ 31) :
    decInt32 (encInt32Nat i / 2 ^ 24 % 256) (encInt32Nat i / 2 ^ 16 % 256)
      (encInt32Nat i / 2 ^ 8 % 256) (encInt32Nat i % 256) = i := by
  have hn := encInt32Nat_lt i h1 h2
  simp only [decInt32, dec32_enc32 _ hn]
  unfold encInt32Nat
  split <;> split <;> omega

/-- C1: framing round-trip.  For every valid `Message` value `m`,
decoding the self-delimiting (length-prefixed) frame produced by
encoding `m` yields exactly `m` and consumes the whole frame. -/
theorem framing_roundtrip (m : Message) (h : ValidMessage m) :
    decodeFrame (encodeMessage m) = .complete m [] := by
  obtain ⟨-, hs1, hs2, -, hl⟩ := h
  have hlen : (encodePayload m).length = m.body.length + 5 := by
    simp [encodePayload, encInt32, enc32]
  conv_lhs => rw [encodeMessage, enc32]
  simp only [List.cons_append, List.nil_append, decodeFrame]
  rw [dec32_enc32 _ (by omega)]
  rw [if_neg (lt_irrefl _)]
  rw [List.take_length, List.drop_length]
  simp only [encodePayload, encInt32, enc32, List.cons_append, List.nil_append]
  rw [decInt32_encInt32 m.sender hs1 hs2]

/-- Witness for C1 at a concrete message. -/
theorem framing_roundtrip_witness :
    decodeFrame (encodeMessage ⟨3, -7, [10, 20, 30]⟩) =
      .complete ⟨3, -7, [10, 20, 30]⟩ [] :=
  framing_roundtrip ⟨3, -7, [10, 20, 30]⟩ (by
    refine ⟨by norm_num, by norm_num, by norm_num, ?_, by norm_num⟩
    intro b hb
    fin_cases hb <;> norm_num)

/-! ## Server data model

`PlayerConnection` is embedded from the header in the source
(socket handle, peer address, player name defaulting to "???", host
flag; `Connected()` is `socket != -1`).  The member-function bodies of
`ServerNetworkCore` are not in the repository, so the operations on
the tables below are modelled from the spec. -/

/-- The authenticated unit of routing, from the source header:
socket handle (-1 when there is no valid connection), peer IP address
(modelled abstractly as a `Nat`), unique player name, host flag. -/
structure PlayerConnection where
  socket : Int
  address : Nat
  name : String := "???"
  host : Bool := false
  deriving DecidableEq, Repr

/-- `PlayerConnection::Connected()`: true while the socket handle is
valid. -/
def PlayerConnection.Connected (pc : PlayerConnection) : Bool :=
  pc.socket != -1

/-- Look up a key in an association list (model of `std::map` lookup). -/
def lookupA {α : Type} (k : Int) : List (Int × α) → Option α
  | [] => none
  | (k', v) :: t => if k = k' then some v else lookupA k t

/-- Insert-or-overwrite a key in an association list, keeping the
position of an existing key (model of `std::map` element assignment). -/
def insertA {α : Type} (k : Int) (v : α) : List (Int × α) → List (Int × α)
  | [] => [(k, v)]
  | (k', v') :: t => if k = k' then (k, v) :: t else (k', v') :: insertA k v t

/-- Erase every entry with the given key (model of `std::map::erase`). -/
def eraseA {α : Type} (k : Int) : List (Int × α) → List (Int × α)
  | [] => []
  | (k', v') :: t => if k' = k then eraseA k t else (k', v') :: eraseA k t

/-- The full state of the `ServerNetworkCore`, from the data members of
the source header: per-socket receive streams, the pending-connection
list `m_new_connections`, the Player Connection Table
`m_player_connections` keyed by player id, and the TCP/UDP listen
sockets.  `open_listen` and `next_desc` model the operating system's
view of the listen descriptors (which descriptors are open, and the
next fresh descriptor number) needed to state descriptor-leak claims. -/
structure ServerState where
  receive_streams : List (Int × List Nat)
  new_connections : List PlayerConnection
  player_connections : List (Int × PlayerConnection)
  tcp_socket : Int
  udp_socket : Int
  open_listen : List Int
  next_desc : Int
  deriving DecidableEq, Repr

/-- The freshly constructed server state: empty tables, no ports open. -/
def ServerState.initial : ServerState :=
  ⟨[], [], [], -1, -1, [], 0⟩

/-- The socket handles of the pending connections. -/
def pendingSockets (st : ServerState) : List Int :=
  st.new_connections.map (·.socket)

/-- The socket handles of the established player connections. -/
def establishedSockets (st : ServerState) : List Int :=
  st.player_connections.map (fun p => p.2.socket)

/-- Modelled from the spec: a socket is currently known/open when it is
a pending connection or the live socket of an established player. -/
def knownOpen (st : ServerState) (socket : Int) : Bool :=
  st.new_connections.any (fun c => c.socket == socket) ||
    st.player_connections.any (fun p => p.2.socket == socket)

/-- Modelled from the spec: `ServerNetworkCore::EstablishPlayer(socket,
player_id, data)`.  Fails (leaving the state unchanged) when `socket` is
not currently known/open, or when ANOTHER player is already mapped to
that same socket; on success it removes the socket from the pending
list and creates/overwrites the table entry for `player_id` (reconnect
semantics), recording `data` with its socket field set to `socket`. -/
def establishPlayer (st : ServerState) (socket player_id : Int)
    (data : PlayerConnection) : Bool × ServerState :=
  if knownOpen st socket &&
      !(st.player_connections.any
        (fun p => p.1 != player_id && p.2.socket == socket)) then
    (true,
      { st with
        new_connections := st.new_connections.filter (fun c => c.socket != socket),
        player_connections :=
          insertA player_id { data with socket := socket } st.player_connections })
  else (false, st)

/-- Modelled from the spec: `ServerNetworkCore::DumpPlayer(player_id)`.
Unknown ids are a no-op returning `false`; a known id has its socket
closed (the returned list is the closed sockets), and its table entry
and receive-stream buffer erased. -/
def dumpPlayer (st : ServerState) (player_id : Int) :
    Bool × ServerState × List Int :=
  match lookupA player_id st.player_connections with
  | none => (false, st, [])
  | some pc =>
    (true,
      { st with
        player_connections := eraseA player_id st.player_connections,
        receive_streams := eraseA pc.socket st.receive_streams },
      if pc.Connected then [pc.socket] else [])

/-- Modelled from the spec: `ServerNetworkCore::DumpConnection(socket)`.
Keyed by socket handle; removes a pending connection on that socket, or
the established player entry whose socket it is, erasing the
receive-stream buffer and closing the socket; returns `false` when no
connection on that socket exists. -/
def dumpConnection (st : ServerState) (socket : Int) :
    Bool × ServerState × List Int :=
  if st.new_connections.any (fun c => c.socket == socket) then
    (true,
      { st with
        new_connections := st.new_connections.filter (fun c => c.socket != socket),
        receive_streams := eraseA socket st.receive_streams },
      [socket])
  else
    match st.player_connections.find? (fun p => p.2.socket == socket) with
    | some (pid, _) =>
      (true,
        { st with
          player_connections := eraseA pid st.player_connections,
          receive_streams := eraseA socket st.receive_streams },
        [socket])
    | none => (false, st, [])

/-- Modelled from the spec: `ServerNetworkCore::DumpAllConnections()`
closes every socket (player and pending) and clears all tables. -/
def dumpAllConnections (st : ServerState) : ServerState × List Int :=
  ({ st with
      receive_streams := [],
      new_connections := [],
      player_connections := [] },
    pendingSockets st ++ establishedSockets st)

/-- Modelled from the spec: the accept path records a new pending
`Connection` with its socket handle and peer address (name is the "???"
placeholder until the host supplies one) and appends it to the pending
list. -/
def acceptConnection (st : ServerState) (socket : Int) (addr : Nat) :
    ServerState :=
  { st with
    new_connections := st.new_connections ++ [{ socket := socket, address := addr }] }

/-- Modelled from the spec: `ServerNetworkCore::ClosePorts()` releases
the two listen descriptors and invalidates the socket fields. -/
def closePorts (st : ServerState) : ServerState :=
  { st with
    open_listen :=
      st.open_listen.filter (fun d => d != st.tcp_socket && d != st.udp_socket),
    tcp_socket := -1,
    udp_socket := -1 }

/-- Modelled from the spec: `ServerNetworkCore::ListenToPorts()` closes
any currently-open listen ports first (via `ClosePorts`), then opens a
fresh TCP listen socket and a fresh UDP socket. -/
def listenToPorts (st : ServerState) : ServerState :=
  let st1 := closePorts st
  { st1 with
    tcp_socket := st1.next_desc,
    udp_socket := st1.next_desc + 1,
    open_listen := st1.open_listen ++ [st1.next_desc, st1.next_desc + 1],
    next_desc := st1.next_desc + 2 }

/-! ## Dispatch and the event pump -/

/-- Where a decoded message was routed: to the host application's
player-message handler `HandleMessage` (with the resolved player id), or
to `HandleNonPlayerMessage`. -/
inductive Routed where
  | toPlayer (id : Int) (m : Message)
  | toNonPlayer (m : Message)
  deriving DecidableEq, Repr

/-- Resolve a socket to the established player connected on it, if any. -/
def socketPlayer (st : ServerState) (socket : Int) : Option Int :=
  (st.player_connections.find? (fun p => p.2.socket == socket)).map (·.1)

/-- Modelled from the spec: `ServerNetworkCore::DispatchMessage(msg,
socket)` routes to the player-message callback when the socket resolves
to an established `PlayerConnection`, and to the non-player callback
otherwise. -/
def dispatchMessage (st : ServerState) (m : Message) (socket : Int) : Routed :=
  match socketPlayer st socket with
  | some id => .toPlayer id m
  | none => .toNonPlayer m

/-- Modelled from the spec: the read-ready path.  Incoming bytes are
appended to the per-socket receive stream; one frame-decode attempt is
made.  A complete frame is dispatched and its bytes consumed; an
incomplete frame leaves the accumulated bytes in the buffer for the
next read; a malformed frame is logged and the accumulated buffer for
that connection is discarded, without closing the connection. -/
def handleData (st : ServerState) (socket : Int) (bytes : List Nat) :
    ServerState × List Routed :=
  let buf := (lookupA socket st.receive_streams).getD [] ++ bytes
  match decodeFrame buf with
  | .complete m rest =>
    ({ st with receive_streams := insertA socket rest st.receive_streams },
      [dispatchMessage st m socket])
  | .incomplete =>
    ({ st with receive_streams := insertA socket buf st.receive_streams }, [])
  | .malformed =>
    ({ st with receive_streams := insertA socket [] st.receive_streams }, [])

/-- Modelled from the spec: a UDP discovery request is answered with the
server's address, with no involvement of the server app. -/
def discoveryResponse (st : ServerState) (packet : List Nat) : List Nat :=
  enc32 (encInt32Nat st.tcp_socket) ++ packet

/-- The transport-level events delivered to
`ServerNetworkCore::HandleNetEvent` by the event pump. -/
inductive NetEvent where
  | tcpAccept (socket : Int) (addr : Nat)
  | tcpReceive (socket : Int) (bytes : List Nat)
  | tcpClose (socket : Int)
  | udpReceive (packet : List Nat)
  deriving DecidableEq, Repr

/-- Modelled from the spec: the single event-pump entry point.  Returns
the new state, the list of messages dispatched to the host application,
and the UDP response bytes (empty except on the discovery path). -/
def handleNetEvent (st : ServerState) (ev : NetEvent) :
    ServerState × List Routed × List Nat :=
  match ev with
  | .tcpAccept socket addr => (acceptConnection st socket addr, [], [])
  | .tcpReceive socket bytes =>
    let (st', outs) := handleData st socket bytes
    (st', outs, [])
  | .tcpClose socket => ((dumpConnection st socket).2.1, [], [])
  | .udpReceive packet => (st, [], discoveryResponse st packet)

/-! ## Scenario states

Concrete execution used by the reconnect claim: player 3 established on
socket 10, `DumpConnection(10)` (simulating a drop), a new accept
yielding socket 17, then `EstablishPlayer(17, 3, data)`. -/

def reconnectStep1 : ServerState := acceptConnection ServerState.initial 10 500

def reconnectStep2 : ServerState :=
  (establishPlayer reconnectStep1 10 3 ⟨-1, 500, "alice", false⟩).2

def reconnectStep3 : ServerState := (dumpConnection reconnectStep2 10).2.1

def reconnectStep4 : ServerState := acceptConnection reconnectStep3 17 501

def reconnectResult : Bool × ServerState :=
  establishPlayer reconnectStep4 17 3 ⟨-1, 501, "alice", false⟩

/-! ## Association-list lemmas -/

theorem lookupA_insertA_self {α : Type} (k : Int) (v : α) (l : List (Int × α)) :
    lookupA k (insertA k v l) = some v := by
  induction l with
  | nil => simp [insertA, lookupA]
  | cons hd t ih =>
    obtain ⟨k', v'⟩ := hd
    by_cases h : k = k'
    · simp [insertA, lookupA, h]
    · simp [insertA, lookupA, h, ih]

theorem lookupA_eraseA_self {α : Type} (k : Int) (l : List (Int × α)) :
    lookupA k (eraseA k l) = none := by
  induction l with
  | nil => simp [eraseA, lookupA]
  | cons hd t ih =>
    obtain ⟨k', v'⟩ := hd
    by_cases h : k' = k
    · simp [eraseA, h, ih]
    · simp [eraseA, lookupA, h, Ne.symm h, ih]

theorem lookupA_eraseA_ne {α : Type} (k k' : Int) (l : List (Int × α))
    (h : k' ≠ k) : lookupA k' (eraseA k l) = lookupA k' l := by
  induction l with
  | nil => simp [eraseA]
  | cons hd t ih =>
    obtain ⟨k'', v⟩ := hd
    by_cases h2 : k'' = k
    · have h4 : k' ≠ k'' := by rw [h2]; exact h
      simp [eraseA, lookupA, h2, h4, h, ih]
    · by_cases h3 : k' = k''
      · simp [eraseA, lookupA, h2, h3]
      · simp [eraseA, lookupA, h2, h3, ih]

theorem mem_insertA {α : Type} {x : Int × α} {k : Int} {v : α}
    {l : List (Int × α)} (h : x ∈ insertA k v l) : x = (k, v) ∨ x ∈ l := by
  induction l with
  | nil => simpa [insertA] using h
  | cons hd t ih =>
    obtain ⟨k', v'⟩ := hd
    by_cases h2 : k = k'
    · simp only [insertA, if_pos h2, List.mem_cons] at h
      rcases h with h | h
      · exact Or.inl h
      · exact Or.inr (List.mem_cons_of_mem _ h)
    · simp only [insertA, if_neg h2, List.mem_cons] at h
      rcases h with h | h
      · exact Or.inr (by simp [h])
      · rcases ih h with h | h
        · exact Or.inl h
        · exact Or.inr (List.mem_cons_of_mem _ h)

theorem mem_insertA_self {α : Type} (k : Int) (v : α) (l : List (Int × α)) :
    (k, v) ∈ insertA k v l := by
  induction l with
  | nil => simp [insertA]
  | cons hd t ih =>
    obtain ⟨k', v'⟩ := hd
    by_cases h : k = k'
    · simp [insertA, h]
    · simp only [insertA, if_neg h, List.mem_cons]
      exact Or.inr ih

theorem insertA_idem {α : Type} (k : Int) (v : α) (l : List (Int × α)) :
    insertA k v (insertA k v l) = insertA k v l := by
  induction l with
  | nil => simp [insertA]
  | cons hd t ih =>
    obtain ⟨k', v'⟩ := hd
    by_cases h : k = k'
    · simp [insertA, h]
    · simp [insertA, h, ih]

/-! ## Claim theorems: framing and connection-table semantics -/

/-- C2: malformed-frame tolerance.  The scenario input (a 4-byte length
prefix claiming a 10000-byte body with only 5 body bytes) decodes as
`incomplete` and yields no dispatched message; the read path never
touches the pending list or the Player Connection Table (so a malformed
frame does not close the connection); and on a malformed frame the
accumulated per-connection buffer is discarded with nothing
dispatched. -/
theorem malformed_frame_tolerance :
    decodeFrame [0, 0, 39, 16, 1, 2, 3, 4, 5] = .incomplete
    ∧ (∀ st s, lookupA s st.receive_streams = none →
        (handleData st s [0, 0, 39, 16, 1, 2, 3, 4, 5]).2 = [])
    ∧ (∀ st s bytes,
        (handleData st s bytes).1.new_connections = st.new_connections
        ∧ (handleData st s bytes).1.player_connections = st.player_connections)
    ∧ (∀ st s bytes,
        decodeFrame ((lookupA s st.receive_streams).getD [] ++ bytes) = .malformed →
        (handleData st s bytes).2 = []
        ∧ lookupA s (handleData st s bytes).1.receive_streams = some []) := by
  have hd : decodeFrame [0, 0, 39, 16, 1, 2, 3, 4, 5] = .incomplete := by decide
  refine ⟨hd, ?_, ?_, ?_⟩
  · intro st s h
    simp only [handleData, h, Option.getD_none, List.nil_append, hd]
  · intro st s bytes
    simp only [handleData]
    split <;> simp
  · intro st s bytes h
    simp only [handleData, h]
    exact ⟨by trivial, lookupA_insertA_self _ _ _⟩

/-- Witness for C2 at concrete inputs: the scenario frame on a fresh
connection dispatches nothing, and a malformed frame (declared length 2,
too short for a header) empties the buffer and dispatches nothing. -/
theorem malformed_frame_tolerance_witness :
    (handleData ServerState.initial 5 [0, 0, 39, 16, 1, 2, 3, 4, 5]).2 = []
    ∧ ((handleData ServerState.initial 5 [0, 0, 0, 2, 9, 9]).2 = []
        ∧ lookupA 5 (handleData ServerState.initial 5 [0, 0, 0, 2, 9, 9]).1.receive_streams
          = some []) :=
  ⟨malformed_frame_tolerance.2.1 ServerState.initial 5 rfl,
    malformed_frame_tolerance.2.2.2 ServerState.initial 5 [0, 0, 0, 2, 9, 9] (by decide)⟩

/-- C3: `EstablishPlayer` fails (leaving the state unchanged) when the
socket is not currently known/open; and in the reconnect scenario
(player 3 on socket 10, `DumpConnection(10)`, accept of socket 17,
`EstablishPlayer(17, 3, data)`) the call succeeds and afterwards
`PlayerConnections()[3].socket == 17`. -/
theorem establishPlayer_reconnect :
    (∀ st s id d, knownOpen st s = false → establishPlayer st s id d = (false, st))
    ∧ reconnectResult.1 = true
    ∧ (lookupA 3 reconnectResult.2.player_connections).map PlayerConnection.socket
      = some 17 := by
  refine ⟨?_, by rfl, by rfl⟩
  intro st s id d h
  simp [establishPlayer, h]

/-- Witness for C3: establishing on a socket unknown to a fresh server
fails and changes nothing. -/
theorem establishPlayer_reconnect_witness :
    establishPlayer ServerState.initial 5 1 ⟨-1, 0, "x", false⟩
      = (false, ServerState.initial) :=
  establishPlayer_reconnect.1 ServerState.initial 5 1 ⟨-1, 0, "x", false⟩ (by decide)

/-- C4: `DumpPlayer` on an unknown player id returns `false` and leaves
the state (tables and receive streams) unchanged and closes nothing; on
a known, connected player id it returns `true`, closes exactly that
player's socket, erases exactly that table entry and that socket's
receive-stream buffer, and leaves every other entry untouched. -/
theorem dumpPlayer_semantics :
    (∀ st id, lookupA id st.player_connections = none →
      dumpPlayer st id = (false, st, []))
    ∧ (∀ st id pc, lookupA id st.player_connections = some pc →
        pc.Connected = true →
        (dumpPlayer st id).1 = true
        ∧ (dumpPlayer st id).2.2 = [pc.socket]
        ∧ lookupA id (dumpPlayer st id).2.1.player_connections = none
        ∧ (∀ id', id' ≠ id →
            lookupA id' (dumpPlayer st id).2.1.player_connections
              = lookupA id' st.player_connections)
        ∧ lookupA pc.socket (dumpPlayer st id).2.1.receive_streams = none
        ∧ (∀ s, s ≠ pc.socket →
            lookupA s (dumpPlayer st id).2.1.receive_streams
              = lookupA s st.receive_streams)
        ∧ (dumpPlayer st id).2.1.new_connections = st.new_connections) := by
  constructor
  · intro st id h
    simp [dumpPlayer, h]
  · intro st id pc h hc
    simp only [dumpPlayer, h]
    refine ⟨by trivial, by simp [hc], lookupA_eraseA_self _ _, ?_,
      lookupA_eraseA_self _ _, ?_, by trivial⟩
    · intro id' hne
      exact lookupA_eraseA_ne _ _ _ hne
    · intro s hne
      exact lookupA_eraseA_ne _ _ _ hne

/-- Witness for C4: on a server with player 3 established on socket 10,
dumping unknown player 9 is a no-op returning `false`, and dumping
player 3 returns `true` and closes socket 10. -/
theorem dumpPlayer_semantics_witness :
    dumpPlayer reconnectStep2 9 = (false, reconnectStep2, [])
    ∧ ((dumpPlayer reconnectStep2 3).1 = true
        ∧ (dumpPlayer reconnectStep2 3).2.2 = [(10 : Int)]
        ∧ lookupA 3 (dumpPlayer reconnectStep2 3).2.1.player_connections = none) :=
  ⟨dumpPlayer_semantics.1 reconnectStep2 9 (by rfl),
    ⟨(dumpPlayer_semantics.2 reconnectStep2 3 ⟨10, 500, "alice", false⟩
        (by rfl) (by rfl)).1,
      (dumpPlayer_semantics.2 reconnectStep2 3 ⟨10, 500, "alice", false⟩
        (by rfl) (by rfl)).2.1,
      (dumpPlayer_semantics.2 reconnectStep2 3 ⟨10, 500, "alice", false⟩
        (by rfl) (by rfl)).2.2.1⟩⟩

/-- A socket currently carries an established player connection. -/
def EstablishedSocket (st : ServerState) (socket : Int) : Prop :=
  ∃ p ∈ st.player_connections, p.2.socket = socket

/-- C6: routing.  Every decoded message arriving on a socket is routed
to the player-message handler exactly when the socket resolves to an
established `PlayerConnection`, and to the non-player handler exactly
otherwise; being a total function into a two-case sum, the router sends
no message to both or to neither. -/
theorem dispatch_routing (st : ServerState) (m : Message) (socket : Int) :
    ((∃ id, dispatchMessage st m socket = .toPlayer id m) ↔
      EstablishedSocket st socket)
    ∧ (dispatchMessage st m socket = .toNonPlayer m ↔
      ¬ EstablishedSocket st socket) := by
  simp only [dispatchMessage, socketPlayer, EstablishedSocket]
  cases h : st.player_connections.find? (fun p => p.2.socket == socket) with
  | none =>
    rw [List.find?_eq_none] at h
    simp only [Option.map_none']
    constructor
    · constructor
      · rintro ⟨id, hid⟩
        cases hid
      · rintro ⟨p, hp, hs⟩
        exact absurd (by simpa using hs) (by simpa using h p hp)
    · constructor
      · rintro - ⟨p, hp, hs⟩
        exact absurd (by simpa using hs) (by simpa using h p hp)
      · intro
        trivial
  | some p =>
    have hmem := List.mem_of_find?_eq_some h
    have hpred := List.find?_some h
    simp only [Option.map_some']
    constructor
    · constructor
      · rintro -
        exact ⟨p, hmem, by simpa using hpred⟩
      · rintro -
        exact ⟨p.1, rfl⟩
    · constructor
      · rintro hcontra
        cases hcontra
      · rintro hno
        exact absurd ⟨p, hmem, by simpa using hpred⟩ hno

/-- C7: UDP discovery isolation.  Handling an inbound UDP packet leaves
the entire server state (in particular the pending list and the Player
Connection Table) unchanged, dispatches no message to the host
application's handlers, and produces a (non-empty) discovery
response. -/
theorem udp_discovery_isolation (st : ServerState) (packet : List Nat) :
    (handleNetEvent st (.udpReceive packet)).1 = st
    ∧ (handleNetEvent st (.udpReceive packet)).2.1 = []
    ∧ (handleNetEvent st (.udpReceive packet)).2.2 ≠ [] := by
  refine ⟨rfl, rfl, ?_⟩
  simp [handleNetEvent, discoveryResponse, enc32]

/-- C8: idempotent promotion.  Calling `EstablishPlayer` twice in
succession with the same socket, player id and data leaves the Player
Connection Table in the same observable state as calling it once. -/
theorem establishPlayer_idempotent (st : ServerState) (socket player_id : Int)
    (data : PlayerConnection) :
    (establishPlayer (establishPlayer st socket player_id data).2
        socket player_id data).2.player_connections
      = (establishPlayer st socket player_id data).2.player_connections := by
  by_cases hg : (knownOpen st socket &&
      !(st.player_connections.any
        (fun p => p.1 != player_id && p.2.socket == socket))) = true
  · have h1 : establishPlayer st socket player_id data =
        (true,
          { st with
            new_connections := st.new_connections.filter (fun c => c.socket != socket),
            player_connections :=
              insertA player_id { data with socket := socket } st.player_connections }) := by
      simp only [establishPlayer, if_pos hg]
    rw [h1]
    have hguard := hg
    rw [Bool.and_eq_true, Bool.not_eq_true', List.any_eq_false] at hguard
    obtain ⟨-, hnone⟩ := hguard
    set st1 : ServerState :=
      { st with
        new_connections := st.new_connections.filter (fun c => c.socket != socket),
        player_connections :=
          insertA player_id { data with socket := socket } st.player_connections }
      with hst1
    have hknown1 : knownOpen st1 socket = true := by
      simp only [knownOpen, Bool.or_eq_true, List.any_eq_true]
      refine Or.inr ⟨(player_id, { data with socket := socket }), ?_, by simp⟩
      exact mem_insertA_self _ _ _
    have hno1 : st1.player_connections.any
        (fun p => p.1 != player_id && p.2.socket == socket) = false := by
      rw [List.any_eq_false]
      intro p hp
      rcases mem_insertA hp with h | h
      · subst h
        simp
      · have := hnone p h
        simpa using this
    simp only [establishPlayer, hknown1, hno1, Bool.not_false, Bool.and_self, if_pos]
    exact insertA_idem _ _ _
  · simp only [establishPlayer, if_neg hg]

/-- The operating-system descriptor-allocation invariant: every open
listen descriptor was allocated below the next-fresh counter. -/
def DescInv (st : ServerState) : Prop :=
  ∀ d ∈ st.open_listen, d < st.next_desc

/-- C9: `ListenToPorts` closes the currently-open listen ports first and
then opens exactly two fresh descriptors (TCP and UDP), so a second call
leaves the same number of open descriptors as a single call — no
descriptor leaks — and both listen sockets are open afterwards. -/
theorem listenToPorts_idempotent (st : ServerState) (h : DescInv st) :
    (listenToPorts st).open_listen.length
      = (closePorts st).open_listen.length + 2
    ∧ (listenToPorts (listenToPorts st)).open_listen.length
      = (listenToPorts st).open_listen.length
    ∧ (listenToPorts st).tcp_socket ∈ (listenToPorts st).open_listen
    ∧ (listenToPorts st).udp_socket ∈ (listenToPorts st).open_listen := by
  have hfilter : ∀ st' : ServerState, DescInv st' →
      (listenToPorts st').open_listen
        = (closePorts st').open_listen ++ [st'.next_desc, st'.next_desc + 1] := by
    intro st' h'
    simp [listenToPorts, closePorts]
  have hsub : DescInv (closePorts st) := by
    intro d hd
    simp only [closePorts, List.mem_filter] at hd
    exact h d hd.1
  refine ⟨by simp [hfilter st h], ?_, ?_, ?_⟩
  · have hnext : (listenToPorts st).next_desc = st.next_desc + 2 := rfl
    have h2 : DescInv (listenToPorts st) := by
      intro d hd
      rw [hfilter st h] at hd
      rw [hnext]
      simp only [List.mem_append, List.mem_cons, List.not_mem_nil, or_false] at hd
      rcases hd with hd | hd | hd
      · have h3 : d < (closePorts st).next_desc := hsub d hd
        have hcp : (closePorts st).next_desc = st.next_desc := rfl
        omega
      · omega
      · omega
    rw [hfilter _ h2, hfilter st h]
    have hclose2 : (closePorts (listenToPorts st)).open_listen
        = (closePorts st).open_listen := by
      simp only [closePorts, listenToPorts]
      rw [List.filter_append]
      have hall : ((closePorts st).open_listen.filter
          (fun d => d != st.next_desc && d != st.next_desc + 1))
            = (closePorts st).open_listen := by
        rw [List.filter_eq_self]
        intro a ha
        have h5 : a < st.next_desc := hsub a ha
        simp only [bne_iff_ne, ne_eq, Bool.and_eq_true, decide_eq_true_eq]
        constructor <;> omega
      simpa [closePorts] using hall
    rw [hclose2]
    simp
  · rw [hfilter st h]
    simp [listenToPorts, closePorts]
  · rw [hfilter st h]
    simp [listenToPorts, closePorts]

/-- Witness for C9 on a fresh server state. -/
theorem listenToPorts_idempotent_witness :
    (listenToPorts ServerState.initial).open_listen.length
      = (closePorts ServerState.initial).open_listen.length + 2
    ∧ (listenToPorts (listenToPorts ServerState.initial)).open_listen.length
      = (listenToPorts ServerState.initial).open_listen.length
    ∧ (listenToPorts ServerState.initial).tcp_socket
      ∈ (listenToPorts ServerState.initial).open_listen
    ∧ (listenToPorts ServerState.initial).udp_socket
      ∈ (listenToPorts ServerState.initial).open_listen :=
  listenToPorts_idempotent ServerState.initial
    (by intro d hd; exact absurd hd (List.not_mem_nil d))

/-! ## Reachable states and the socket-uniqueness invariant -/

/-- The states reachable from a freshly constructed server by the
core's table operations.  A TCP accept only ever delivers a socket
handle that is not currently live (the OS does not reuse an open
descriptor), which `knownOpen st socket = false` captures. -/
inductive Reachable : ServerState → Prop where
  | initial : Reachable ServerState.initial
  | accept (st : ServerState) (socket : Int) (addr : Nat) :
      Reachable st → knownOpen st socket = false →
      Reachable (acceptConnection st socket addr)
  | establish (st : ServerState) (socket player_id : Int)
      (data : PlayerConnection) :
      Reachable st → Reachable (establishPlayer st socket player_id data).2
  | dumpP (st : ServerState) (player_id : Int) :
      Reachable st → Reachable (dumpPlayer st player_id).2.1
  | dumpC (st : ServerState) (socket : Int) :
      Reachable st → Reachable (dumpConnection st socket).2.1
  | dumpAll (st : ServerState) :
      Reachable st → Reachable (dumpAllConnections st).1

/-- No socket handle is simultaneously pending and established. -/
def PendingExclusive (st : ServerState) : Prop :=
  ∀ s ∈ pendingSockets st, s ∉ establishedSockets st

/-- A socket handle identifies at most one player. -/
def SocketUnique (st : ServerState) : Prop :=
  st.player_connections.Pairwise (fun a b => a.2.socket ≠ b.2.socket)

/-- Player ids key the table uniquely (it models a `std::map`). -/
def KeysUnique (st : ServerState) : Prop :=
  st.player_connections.Pairwise (fun a b => a.1 ≠ b.1)

/-- The combined table invariant. -/
def ServerInv (st : ServerState) : Prop :=
  KeysUnique st ∧ PendingExclusive st ∧ SocketUnique st

theorem mem_eraseA {α : Type} {x : Int × α} {k : Int} {l : List (Int × α)}
    (h : x ∈ eraseA k l) : x ∈ l := by
  induction l with
  | nil => simp [eraseA] at h
  | cons hd t ih =>
    obtain ⟨k', v⟩ := hd
    by_cases h2 : k' = k
    · simp only [eraseA, if_pos h2] at h
      exact List.mem_cons_of_mem _ (ih h)
    · simp only [eraseA, if_neg h2, List.mem_cons] at h
      rcases h with h | h
      · simp [h]
      · exact List.mem_cons_of_mem _ (ih h)

theorem pairwise_eraseA {α : Type} {R : Int × α → Int × α → Prop} {k : Int}
    {l : List (Int × α)} (h : l.Pairwise R) : (eraseA k l).Pairwise R := by
  induction l with
  | nil => simp [eraseA]
  | cons hd t ih =>
    obtain ⟨k', v⟩ := hd
    rw [List.pairwise_cons] at h
    by_cases h2 : k' = k
    · simp only [eraseA, if_pos h2]
      exact ih h.2
    · simp only [eraseA, if_neg h2, List.pairwise_cons]
      exact ⟨fun b hb => h.1 b (mem_eraseA hb), ih h.2⟩

theorem pairwise_keys_insertA {α : Type} (k : Int) (v : α)
    {l : List (Int × α)} (h : l.Pairwise (fun a b => a.1 ≠ b.1)) :
    (insertA k v l).Pairwise (fun a b => a.1 ≠ b.1) := by
  induction l with
  | nil => simp [insertA]
  | cons hd t ih =>
    obtain ⟨k', v'⟩ := hd
    rw [List.pairwise_cons] at h
    by_cases h2 : k = k'
    · simp only [insertA, if_pos h2, List.pairwise_cons]
      exact ⟨fun b hb => h2 ▸ h.1 b hb, h.2⟩
    · simp only [insertA, if_neg h2, List.pairwise_cons]
      refine ⟨fun b hb => ?_, ih h.2⟩
      rcases mem_insertA hb with hb | hb
      · rw [hb]
        exact fun hc => h2 hc.symm
      · exact h.1 b hb

theorem pairwise_sock_insertA {k : Int} {v : PlayerConnection}
    {l : List (Int × PlayerConnection)}
    (hkeys : l.Pairwise (fun a b => a.1 ≠ b.1))
    (hsock : l.Pairwise (fun a b => a.2.socket ≠ b.2.socket))
    (hguard : ∀ p ∈ l, p.1 ≠ k → p.2.socket ≠ v.socket) :
    (insertA k v l).Pairwise (fun a b => a.2.socket ≠ b.2.socket) := by
  induction l with
  | nil => simp [insertA]
  | cons hd t ih =>
    obtain ⟨k', v'⟩ := hd
    rw [List.pairwise_cons] at hkeys hsock
    by_cases h2 : k = k'
    · simp only [insertA, if_pos h2, List.pairwise_cons]
      refine ⟨fun b hb => ?_, hsock.2⟩
      have hbk : b.1 ≠ k := fun hc => hkeys.1 b hb (h2 ▸ hc.symm ▸ rfl)
      exact fun hc => hguard b (List.mem_cons_of_mem _ hb) hbk hc.symm
    · simp only [insertA, if_neg h2, List.pairwise_cons]
      refine ⟨fun b hb => ?_, ?_⟩
      · rcases mem_insertA hb with hb | hb
        · rw [hb]
          exact hguard (k', v') (List.mem_cons_self _ _) (fun hc => h2 hc.symm)
        · exact hsock.1 b hb
      · exact ih hkeys.2 hsock.2
          (fun p hp hpk => hguard p (List.mem_cons_of_mem _ hp) hpk)

theorem knownOpen_false_elim {st : ServerState} {s : Int}
    (h : knownOpen st s = false) :
    s ∉ pendingSockets st ∧ s ∉ establishedSockets st := by
  simp only [knownOpen, Bool.or_eq_false_iff, List.any_eq_false] at h
  constructor
  · intro hs
    obtain ⟨c, hc, hcs⟩ := List.mem_map.mp hs
    exact absurd (by simpa using hcs) (by simpa using h.1 c hc)
  · intro hs
    obtain ⟨p, hp, hps⟩ := List.mem_map.mp hs
    exact absurd (by simpa using hps) (by simpa using h.2 p hp)

theorem serverInv_preserved_accept {st : ServerState} {s : Int} {a : Nat}
    (hInv : ServerInv st) (hfresh : knownOpen st s = false) :
    ServerInv (acceptConnection st s a) := by
  obtain ⟨hk, hp, hs⟩ := hInv
  obtain ⟨-, hnotest⟩ := knownOpen_false_elim hfresh
  refine ⟨hk, ?_, hs⟩
  intro x hx
  have : pendingSockets (acceptConnection st s a) = pendingSockets st ++ [s] := by
    simp [acceptConnection, pendingSockets]
  rw [this, List.mem_append] at hx
  rcases hx with hx | hx
  · exact hp x hx
  · simp only [List.mem_singleton] at hx
    subst hx
    exact hnotest

theorem serverInv_preserved_establish {st : ServerState}
    {s pid : Int} {d : PlayerConnection} (hInv : ServerInv st) :
    ServerInv (establishPlayer st s pid d).2 := by
  obtain ⟨hk, hp, hs⟩ := hInv
  by_cases hg : (knownOpen st s &&
      !(st.player_connections.any
        (fun p => p.1 != pid && p.2.socket == s))) = true
  · have hnone : ∀ p ∈ st.player_connections,
        ¬(p.1 != pid && p.2.socket == s) = true := by
      have hg2 := hg
      rw [Bool.and_eq_true, Bool.not_eq_true', List.any_eq_false] at hg2
      exact hg2.2
    have hguard : ∀ p ∈ st.player_connections, p.1 ≠ pid → p.2.socket ≠ s := by
      intro p hpmem hpk
      have h3 := hnone p hpmem
      simp only [Bool.and_eq_true, bne_iff_ne, ne_eq, beq_iff_eq, not_and] at h3
      exact h3 hpk
    simp only [establishPlayer, if_pos hg]
    refine ⟨?_, ?_, ?_⟩
    · exact pairwise_keys_insertA pid _ hk
    · intro x hx hx'
      simp only [pendingSockets, List.mem_map] at hx
      obtain ⟨c, hc, rfl⟩ := hx
      rw [List.mem_filter] at hc
      have hcneq : c.socket ≠ s := by simpa using hc.2
      simp only [establishedSockets, List.mem_map] at hx'
      obtain ⟨p, hpmem, hps⟩ := hx'
      rcases mem_insertA hpmem with hpv | hpv
      · rw [hpv] at hps
        exact hcneq hps.symm
      · exact hp c.socket (List.mem_map.mpr ⟨c, hc.1, rfl⟩)
          (List.mem_map.mpr ⟨p, hpv, hps⟩)
    · exact pairwise_sock_insertA hk hs
        (fun p hpmem hpk => hguard p hpmem hpk)
  · simp only [establishPlayer, if_neg hg]
    exact ⟨hk, hp, hs⟩

theorem serverInv_preserved_dumpPlayer {st : ServerState} {pid : Int}
    (hInv : ServerInv st) : ServerInv (dumpPlayer st pid).2.1 := by
  obtain ⟨hk, hp, hs⟩ := hInv
  simp only [dumpPlayer]
  cases h : lookupA pid st.player_connections with
  | none => exact ⟨hk, hp, hs⟩
  | some pc =>
    refine ⟨pairwise_eraseA hk, ?_, pairwise_eraseA hs⟩
    intro x hx hx'
    simp only [establishedSockets, List.mem_map] at hx'
    obtain ⟨p, hpmem, hps⟩ := hx'
    exact hp x hx (List.mem_map.mpr ⟨p, mem_eraseA hpmem, hps⟩)

theorem serverInv_preserved_dumpConnection {st : ServerState} {s : Int}
    (hInv : ServerInv st) : ServerInv (dumpConnection st s).2.1 := by
  obtain ⟨hk, hp, hs⟩ := hInv
  simp only [dumpConnection]
  by_cases hpend : st.new_connections.any (fun c => c.socket == s) = true
  · simp only [if_pos hpend]
    refine ⟨hk, ?_, hs⟩
    intro x hx hx'
    simp only [pendingSockets, List.mem_map] at hx
    obtain ⟨c, hc, rfl⟩ := hx
    rw [List.mem_filter] at hc
    exact hp c.socket (List.mem_map.mpr ⟨c, hc.1, rfl⟩) hx'
  · simp only [Bool.not_eq_true] at hpend
    simp only [hpend, Bool.false_eq_true, if_false]
    cases hfind : st.player_connections.find? (fun p => p.2.socket == s) with
    | none => exact ⟨hk, hp, hs⟩
    | some p =>
      obtain ⟨ppid, ppc⟩ := p
      refine ⟨pairwise_eraseA hk, ?_, pairwise_eraseA hs⟩
      intro x hx hx'
      simp only [establishedSockets, List.mem_map] at hx'
      obtain ⟨q, hqmem, hqs⟩ := hx'
      exact hp x hx (List.mem_map.mpr ⟨q, mem_eraseA hqmem, hqs⟩)

theorem serverInv_preserved_dumpAll (st : ServerState) :
    ServerInv (dumpAllConnections st).1 := by
  refine ⟨List.Pairwise.nil, ?_, List.Pairwise.nil⟩
  intro x hx
  simp [dumpAllConnections, pendingSockets] at hx

theorem serverInv_reachable {st : ServerState} (h : Reachable st) :
    ServerInv st := by
  induction h with
  | initial =>
    exact ⟨List.Pairwise.nil, fun x hx => by simp [pendingSockets, ServerState.initial] at hx,
      List.Pairwise.nil⟩
  | accept st s a _ hfresh ih => exact serverInv_preserved_accept ih hfresh
  | establish st s pid d _ ih => exact serverInv_preserved_establish ih
  | dumpP st pid _ ih => exact serverInv_preserved_dumpPlayer ih
  | dumpC st s _ ih => exact serverInv_preserved_dumpConnection ih
  | dumpAll st _ _ => exact serverInv_preserved_dumpAll st

/-- C5: pending/established exclusivity.  In every state reachable by
any sequence of the core's operations, no socket handle appears
simultaneously in the pending-connection list `m_new_connections` and in
the Player Connection Table `m_player_connections`, and a socket handle
identifies at most one player at a time (the table's entries carry
pairwise-distinct sockets). -/
theorem pending_established_exclusivity (st : ServerState)
    (h : Reachable st) :
    (∀ s ∈ pendingSockets st, s ∉ establishedSockets st)
    ∧ st.player_connections.Pairwise (fun a b => a.2.socket ≠ b.2.socket) := by
  obtain ⟨-, h1, h2⟩ := serverInv_reachable h
  exact ⟨h1, h2⟩

/-- Witness for C5 at the concrete reconnect-scenario state, reached by
accept, establish, dump-connection, accept, establish. -/
theorem pending_established_exclusivity_witness :
    (∀ s ∈ pendingSockets reconnectResult.2, s ∉ establishedSockets reconnectResult.2)
    ∧ reconnectResult.2.player_connections.Pairwise
        (fun a b => a.2.socket ≠ b.2.socket) :=
  pending_established_exclusivity reconnectResult.2
    (Reachable.establish reconnectStep4 17 3 ⟨-1, 501, "alice", false⟩
      (Reachable.accept reconnectStep3 17 501
        (Reachable.dumpC reconnectStep2 10
          (Reachable.establish reconnectStep1 10 3 ⟨-1, 500, "alice", false⟩
            (Reachable.accept ServerState.initial 10 500 Reachable.initial
              (by decide))))
        (by decide)))

/-! ## Client message handling (`HumanClientApp.cpp`)

Embedded from the source: `HumanClientApp::HandleMessageImpl` sets
`m_handling_message` on entry, runs one `switch` branch per message
type, and clears the flag before returning; `HandleSystemEvents` polls
with `SDL_USEREVENT` masked out of `SDL_ALLEVENTS` while the flag is
set.  External calls (logging, UI, network writes, serialization) are
recorded as effects; text parsing (`XMLDoc`, `lexical_cast`, boost
archives) is abstracted into an environment of parse functions. -/

/-- The `Message::Type()` codes handled by the client switch. -/
inductive ClientMsgType where
  | serverStatus | hostGame | joinGame | gameStart | saveGame | loadGame
  | turnUpdate | turnProgress | combatStart | combatRoundUpdate | combatEnd
  | humanPlayerMsg | playerEliminated | playerExit | endGame
  | other (code : Nat)
  deriving DecidableEq, Repr

/-- A message as seen by the client: type tag, `Sender()`, `GetText()`. -/
structure ClientMessage where
  mtype : ClientMsgType
  sender : Int
  text : String
  deriving DecidableEq, Repr

/-- Parse result of the `SERVER_STATUS` XML document: which child the
root node contains (`new_name`, `server_state`, `settings_files`, or
none of these). -/
inductive ServerStatusDoc where
  | newName (name : String)
  | serverState (value : Int)
  | settingsFiles (settings sources : String)
  | plain
  deriving DecidableEq, Repr

/-- Parse result of the `GAME_START` XML archive. -/
structure GameStartData where
  single_player_game : Bool
  empire_id : Int
  current_turn : Int
  deriving DecidableEq, Repr

/-- Environment abstracting the text parsers and ambient queries used
by the switch branches (XML / boost-archive deserialization, empire
lookup, `NetworkCore().Connected()`). -/
structure ClientEnv where
  serverStatusDoc : String → ServerStatusDoc
  joinAckId : String → Int
  gameStartData : String → GameStartData
  loadUiDataAvailable : String → Bool
  turnUpdateTurn : String → Int
  turnProgressPhase : String → Int
  turnProgressEmpire : String → Int
  empireName : Int → Option String
  networkConnected : Bool

/-- The `HumanClientApp` members read or written by
`HandleMessageImpl`. -/
structure ClientState where
  handling_message : Bool
  player_name : String
  player_id : Int
  game_started : Bool
  single_player_game : Bool
  empire_id : Int
  current_turn : Int
  deriving DecidableEq, Repr

/-- `NetworkCore::HOST_PLAYER_ID` (declared in a header not in the
repository; only compared for equality here). -/
def HOST_PLAYER_ID : Int := 0

/-- `SERVER_DYING` server-state code (declared in a header not in the
repository; only compared for equality here). -/
def SERVER_DYING : Int := 4

/-- The externally visible calls a switch branch makes, in order. -/
inductive ClientEffect where
  | logDebug (s : String)
  | logError (s : String)
  | killProcess
  | requestTermination
  | disconnectFromServer
  | messageBox (text : String) (play_alert_sound : Bool)
  | sanitizeMapWnd
  | screenIntro
  | screenMap
  | initTurn (turn : Int)
  | ordersReset
  | deserializeGameState
  | deserializeOrders
  | applyOrders
  | restoreUIData
  | generateSitRepText
  | autosave (new_game : Bool)
  | sendTurnOrders (save_game_data : Bool)
  | updateTurnProgress (phase : Int) (empire : Int)
  | updateCombatTurnProgress (s : String)
  | handlePlayerChatMessage (s : String)
  deriving DecidableEq, Repr

/-- `HumanClientApp::KillServer()`: kills the server process and resets
player id, empire id and player name. -/
def killServerState (st : ClientState) : ClientState :=
  { st with player_id := -1, empire_id := -1, player_name := "" }

/-- `HumanClientApp::EndGame()`: clears `m_game_started` and resets
player id, empire id and player name (the network disconnect, process
termination and UI calls are recorded as effects). -/
def endGameState (st : ClientState) : ClientState :=
  { st with
      game_started := false
      player_id := -1
      empire_id := -1
      player_name := "" }

/-- The effect trace of `EndGame()`. -/
def endGameEffects : List ClientEffect :=
  [.disconnectFromServer, .requestTermination, .sanitizeMapWnd, .screenIntro]

/-- The body of the `switch (msg.Type())` in
`HumanClientApp::HandleMessageImpl`, embedded branch by branch from the
source.  Every branch ends in `break`: none returns early and none
touches `m_handling_message`. -/
def handleBranch (env : ClientEnv) (st : ClientState) (msg : ClientMessage) :
    ClientState × List ClientEffect :=
  match msg.mtype with
  | .serverStatus =>
    match env.serverStatusDoc msg.text with
    | .newName n =>
      ({ st with player_name := n },
        [.logDebug "Received SERVER_STATUS -- Server has renamed this player"])
    | .serverState v =>
      if v = SERVER_DYING then
        (killServerState st, [.logDebug "Received SERVER_STATUS", .killProcess])
      else (st, [.logDebug "Received SERVER_STATUS"])
    | .settingsFiles s t =>
      (endGameState st,
        (.logDebug "Received SERVER_STATUS -- Connection rejected by server") ::
          (.messageBox ("ERR_VERSION_MISMATCH" ++ s ++ " " ++ t) true) ::
          endGameEffects)
    | .plain => (st, [])
  | .hostGame =>
    if msg.sender = -1 ∧ msg.text = "ACK" then
      (st, [.logDebug "Received HOST_GAME acknowledgement"])
    else (st, [])
  | .joinGame =>
    if msg.sender = -1 then
      if st.player_id = -1 then
        ({ st with player_id := env.joinAckId msg.text },
          [.logDebug "Received JOIN_GAME acknowledgement"])
      else if st.player_id ≠ HOST_PLAYER_ID then
        (st, [.logError "Received erroneous JOIN_GAME acknowledgement"])
      else (st, [])
    else (st, [])
  | .gameStart =>
    if msg.sender = -1 then
      let gd := env.gameStartData msg.text
      ({ st with
          game_started := true
          single_player_game := gd.single_player_game
          empire_id := gd.empire_id
          current_turn := gd.current_turn },
        [.logDebug "Received GAME_START message", .deserializeGameState,
          .ordersReset, .logDebug "Universe setup complete",
          .generateSitRepText, .autosave true, .screenMap,
          .initTurn gd.current_turn])
    else (st, [])
  | .saveGame => (st, [.sendTurnOrders true])
  | .loadGame =>
    (st,
      .deserializeOrders :: .applyOrders ::
        (if env.loadUiDataAvailable msg.text then [.restoreUIData] else []))
  | .turnUpdate =>
    let turn := env.turnUpdateTurn msg.text
    let st' := { st with current_turn := turn }
    if ¬ st.game_started ∨ ¬ env.networkConnected then
      (st', [.deserializeGameState, .generateSitRepText, .autosave false])
    else
      (st', [.deserializeGameState, .generateSitRepText, .autosave false,
        .screenMap, .initTurn turn])
  | .turnProgress =>
    (st, [.updateTurnProgress (env.turnProgressPhase msg.text)
      (env.turnProgressEmpire msg.text)])
  | .combatStart => (st, [.updateCombatTurnProgress msg.text])
  | .combatRoundUpdate => (st, [.updateCombatTurnProgress msg.text])
  | .combatEnd => (st, [.updateCombatTurnProgress msg.text])
  | .humanPlayerMsg => (st, [.handlePlayerChatMessage msg.text])
  | .playerEliminated =>
    match env.empireName st.empire_id with
    | none => (st, [.logDebug "Message::PLAYER_ELIMINATED"])
    | some nm =>
      if nm = msg.text then
        (endGameState st,
          (.logDebug "Message::PLAYER_ELIMINATED") ::
            (.messageBox "PLAYER_DEFEATED" false) :: endGameEffects)
      else
        (st, [.logDebug "Message::PLAYER_ELIMINATED",
          .messageBox "EMPIRE_DEFEATED" false])
  | .playerExit =>
    (st, [.messageBox ("PLAYER_DISCONNECTED " ++ msg.text) true])
  | .endGame =>
    if st.game_started then
      if msg.text = "VICTORY" then
        (endGameState st, endGameEffects ++ [.messageBox "PLAYER_VICTORIOUS" false])
      else
        (endGameState st, endGameEffects ++ [.messageBox "SERVER_GAME_END" false])
    else (st, [])
  | .other _ => (st, [.logError "Received unknown Message type code"])

/-- `HumanClientApp::HandleMessageImpl`: sets `m_handling_message =
true` on entry, runs the switch, and sets it back to `false` before
returning. -/
def handleMessageImpl (env : ClientEnv) (st : ClientState)
    (msg : ClientMessage) : ClientState × List ClientEffect :=
  let r := handleBranch env { st with handling_message := true } msg
  ({ r.1 with handling_message := false }, r.2)

/-- `SDL_USEREVENT` (SDL 1.2 event type code; network events arrive as
user events). -/
def SDL_USEREVENT : Nat := 24

/-- `SDL_EVENTMASK(X) = 1 << X`. -/
def sdlEventMask (t : Nat) : Nat := 2 ^ t

/-- `SDL_ALLEVENTS = 0xFFFFFFFF`. -/
def SDL_ALLEVENTS : Nat := 2 ^ 32 - 1

/-- The event mask `HumanClientApp::HandleSystemEvents` polls with:
`SDL_ALLEVENTS & ~SDL_EVENTMASK(SDL_USEREVENT)` while
`m_handling_message` is set, `SDL_ALLEVENTS` otherwise (32-bit
complement). -/
def handleSystemEventsMask (st : ClientState) : Nat :=
  if st.handling_message then
    SDL_ALLEVENTS &&& (2 ^ 32 - 1 - sdlEventMask SDL_USEREVENT)
  else SDL_ALLEVENTS

theorem handleBranch_preserves_flag (env : ClientEnv) (st : ClientState)
    (msg : ClientMessage) :
    (handleBranch env st msg).1.handling_message = st.handling_message := by
  obtain ⟨t, sender, text⟩ := msg
  cases t <;>
    simp only [handleBranch] <;>
    (repeat' split) <;>
    rfl

/-- C10: re-entrancy guard.  `HandleMessageImpl` leaves
`m_handling_message` false on return for every message type; during the
switch the flag is true on every branch; and `HandleSystemEvents` polls
with the `SDL_USEREVENT` bit masked out exactly while the flag is set,
so a second network message is never dispatched re-entrantly. -/
theorem handleMessage_reentrancy_guard :
    (∀ (env : ClientEnv) (st : ClientState) (msg : ClientMessage),
        (handleMessageImpl env st msg).1.handling_message = false)
    ∧ (∀ (env : ClientEnv) (st : ClientState) (msg : ClientMessage),
        (handleBranch env { st with handling_message := true } msg).1.handling_message
          = true)
    ∧ (∀ st : ClientState,
        Nat.testBit (handleSystemEventsMask st) SDL_USEREVENT
          = !st.handling_message) := by
  refine ⟨fun env st msg => rfl, fun env st msg => ?_, fun st => ?_⟩
  · rw [handleBranch_preserves_flag]
  · cases h : st.handling_message <;>
      simp only [handleSystemEventsMask, h, if_true, if_false,
        Bool.false_eq_true, SDL_ALLEVENTS, sdlEventMask, SDL_USEREVENT] <;>
      decide

end FreeOrion
